import Mathlib

/-!
Verification development for the `mcp-mongodb-novel-server` repository.

The Rust sources are shallowly embedded as executable Lean definitions:

* `src/utils/query_parser.rs` — natural-language query parsing;
* `src/models/domain.rs` — the entity data model;
* `src/services/db_service.rs` — the search executor over a document
  store, modelled as in-memory lists with explicit state passing (the
  MongoDB text/`$regex` matchers, which live outside the repository, are
  abstracted as boolean-valued parameters collected in `MongoEnv`);
* `src/mcp/server.rs` — response formatting and the tool methods;
* `src/handlers/rmcp_handler.rs` — the JSON-RPC HTTP dispatcher;
* `src/handlers/mcp_handler.rs` — the SDK `call_tool` dispatcher and its
  `truncate_text` helper.

Text is modelled as `List Char`; Rust's byte-oriented operations
(`str::len`, byte slicing) are modelled through an explicit UTF-8 byte
size function so that byte/character distinctions are preserved.
-/

namespace NovelServer

/-! ## Character and string primitives -/

/-- Model of Rust `char::is_alphanumeric` (agrees on ASCII, which is all
the concrete inputs used below exercise). -/
def isAlnumChar (c : Char) : Bool := c.isAlphanum

/-- Model of the per-character lowercasing done by Rust
`str::to_lowercase` (agrees on ASCII). -/
def lowerChar (c : Char) : Char := c.toLower

/-- Number of bytes of the UTF-8 encoding of a character, as Rust
`char::len_utf8`. -/
def charBytes (c : Char) : Nat :=
  if c.toNat < 0x80 then 1
  else if c.toNat < 0x800 then 2
  else if c.toNat < 0x10000 then 3
  else 4

/-- UTF-8 byte length of a string, as Rust `str::len`. -/
def utf8Len (s : List Char) : Nat := (s.map charBytes).sum

/-- Models `listStartsWith pat s` — `pat` is a prefix of `s`. -/
def listStartsWith : List Char → List Char → Bool
  | [], _ => true
  | _ :: _, [] => false
  | a :: as, b :: bs => a == b && listStartsWith as bs

/-- Models `listHasSub needle hay` — `needle` occurs as a contiguous substring
of `hay`; model of Rust `str::contains`. -/
def listHasSub (needle : List Char) : List Char → Bool
  | [] => listStartsWith needle []
  | c :: rest => listStartsWith needle (c :: rest) || listHasSub needle rest

/-- Model of Rust `split_whitespace`: maximal runs of non-whitespace
characters, in order; empty runs are dropped. -/
def splitWhitespaceAux : List Char → List Char → List (List Char)
  | [], acc => if acc.isEmpty then [] else [acc.reverse]
  | c :: cs, acc =>
    if c.isWhitespace then
      if acc.isEmpty then splitWhitespaceAux cs []
      else acc.reverse :: splitWhitespaceAux cs []
    else splitWhitespaceAux cs (c :: acc)

def splitWhitespace (s : List Char) : List (List Char) :=
  splitWhitespaceAux s []

/-- Model of Rust `str::trim_matches(|c| !c.is_alphanumeric())`: strip
leading and trailing non-alphanumeric characters. -/
def trimNonAlnum (s : List Char) : List Char :=
  ((s.dropWhile fun c => !isAlnumChar c).reverse.dropWhile fun c => !isAlnumChar c).reverse

/-! ## QueryParser (`src/utils/query_parser.rs`) -/

/-- The fixed stop-word set of `QueryParser::extract_keywords`
(`query_parser.rs` lines 76–81). -/
def stopWords : List (List Char) :=
  ["the".data, "a".data, "an".data, "in".data, "on".data, "at".data, "of".data,
   "to".data, "for".data, "with".data, "about".data, "by".data,
   "is".data, "are".data, "was".data, "were".data, "be".data, "been".data,
   "being".data, "have".data, "has".data, "had".data,
   "do".data, "does".data, "did".data, "can".data, "could".data, "will".data,
   "would".data, "should".data, "shall".data,
   "get".data, "find".data, "show".data, "tell".data, "give".data,
   "search".data, "query".data, "look".data]

/-- Models `QueryParser::extract_keywords` (`query_parser.rs` lines 74–91):
split on whitespace, lowercase each token, and keep a token when its
copy with leading/trailing non-alphanumeric characters stripped is not a
stop word and has byte length > 2.  Note that the *unstripped* lowercased
token is what is collected: `trim_matches` is applied only inside the
filter closure. -/
def extract_keywords (query : List Char) : List (List Char) :=
  ((splitWhitespace query).map (fun w => w.map lowerChar)).filter fun word =>
    let w := trimNonAlnum word
    !(stopWords.contains w) && decide (2 < utf8Len w)

/-- The keyword extraction as §4.1 of the spec words it (claim C5): the
kept tokens themselves are the *stripped* lowercased tokens.  Stated only
to be compared with `extract_keywords`, which is the code's behaviour. -/
def extract_keywords_specWording (query : List Char) : List (List Char) :=
  (((splitWhitespace query).map (fun w => w.map lowerChar)).map trimNonAlnum).filter
    fun w => !(stopWords.contains w) && decide (2 < utf8Len w)

/-- The fixed ordered keyword→collection table of
`QueryParser::extract_collection` (`query_parser.rs` lines 35–42). -/
def collectionsTable : List (List Char × String) :=
  [("novel".data, "novels"), ("chapter".data, "chapters"),
   ("character".data, "characters"), ("qa".data, "qa"),
   ("question".data, "qa"), ("answer".data, "qa")]

/-- The scan loop of `extract_collection`: first table entry whose
keyword is a substring of the lowercased query wins. -/
def findByTable : List (List Char × String) → List Char → Option String
  | [], _ => none
  | (kw, coll) :: rest, q =>
    if listHasSub kw (q.map lowerChar) then some coll else findByTable rest q

/-- Models `QueryParser::extract_collection` (`query_parser.rs` lines 34–51). -/
def extract_collection (query : List Char) : Option String :=
  findByTable collectionsTable query

/-- The fixed ordered keyword→query-type table of
`QueryParser::extract_query_type` (`query_parser.rs` lines 54–63). -/
def queryTypesTable : List (List Char × String) :=
  [("summary".data, "summary"), ("overview".data, "summary"),
   ("detail".data, "details"), ("information".data, "details"),
   ("search".data, "search"), ("find".data, "search"),
   ("list".data, "list"), ("all".data, "list")]

/-- Models `QueryParser::extract_query_type` (`query_parser.rs` lines 53–72). -/
def extract_query_type (query : List Char) : Option String :=
  findByTable queryTypesTable query

/-- Models `SearchFilters` (`domain.rs` lines 82–86). -/
structure SearchFilters where
  novel_id : Option String
  character_name : Option String
  tags : Option (List String)
deriving DecidableEq

/-- Models `SearchParams` (`domain.rs` lines 73–79).  `limit` is a `u32` in the
source; it is modelled as `Nat` (its numeric range plays no role in the
properties below). -/
structure SearchParams where
  collection : String
  query_type : String
  keywords : List (List Char)
  filters : Option SearchFilters
  limit : Option Nat
deriving DecidableEq

/-- Models `QueryParser::parse_natural_language_query` (`query_parser.rs`
lines 9–32).  The `extract_filters` and `extract_limit` steps are
independent regular-expression scans whose results feed only the
`filters` and `limit` fields; no claim below depends on their exact
capture semantics, so they are taken as explicit functional parameters
`filtersOf` and `limitOf` (every theorem about `parse` quantifies over
them). -/
def parse_natural_language_query (filtersOf : List Char → SearchFilters)
    (limitOf : List Char → Option Nat) (query : List Char) : SearchParams :=
  { collection := (extract_collection query).getD "novels"
    query_type := (extract_query_type query).getD "search"
    keywords := extract_keywords query
    filters := some (filtersOf query)
    limit := limitOf query }

/-- Models `truncate_text` (`mcp_handler.rs` lines 272–279).  Rust compares and
slices by *bytes*: `&text[0..max_length]` panics when `max_length` is not
a character boundary, which the model records as `none`. -/
def byteBoundaries : List Char → List Nat
  | [] => [0]
  | c :: cs => 0 :: (byteBoundaries cs).map (· + charBytes c)

def takeBytes : List Char → Nat → List Char
  | _, 0 => []
  | [], _ + 1 => []
  | c :: cs, n + 1 => if charBytes c ≤ n + 1 then c :: takeBytes cs (n + 1 - charBytes c) else []

def truncate_text (text : List Char) (maxLength : Nat) : Option (List Char) :=
  if utf8Len text ≤ maxLength then some text
  else if (byteBoundaries text).contains maxLength then
    some (takeBytes text maxLength ++ "...".data)
  else none

/-! ## Data model (`src/models/domain.rs`) -/

/-- MongoDB `ObjectId`, carried as its 24-character hex string. -/
structure ObjectId where
  hex : String
deriving DecidableEq

/-- Model of `ObjectId::parse_str`: succeeds exactly on 24 hex digits. -/
def parseObjectId (s : String) : Option ObjectId :=
  if s.length = 24 && s.data.all (fun c => c.isDigit || ('a' ≤ c && c ≤ 'f') || ('A' ≤ c && c ≤ 'F')) then
    some ⟨s⟩
  else none

structure NovelMetadata where
  publication_date : Option String
  genre : List String
  word_count : Option Nat
  language : Option String
deriving DecidableEq

structure Novel where
  id : Option ObjectId
  title : String
  author : String
  summary : String
  tags : List String
  metadata : Option NovelMetadata
deriving DecidableEq

structure Chapter where
  id : Option ObjectId
  novel_id : ObjectId
  number : Nat
  title : String
  summary : String
  key_points : List String
  content : Option String
deriving DecidableEq

structure Relationship where
  character_id : Option ObjectId
  character_name : String
  relationship_type : String
deriving DecidableEq

structure Character where
  id : Option ObjectId
  novel_id : ObjectId
  name : String
  role : String
  description : String
  key_traits : List String
  relationships : List Relationship
deriving DecidableEq

structure QA where
  id : Option ObjectId
  novel_id : Option ObjectId
  question : String
  answer : String
  tags : List String
deriving DecidableEq

/-- The document store: the four collections as in-memory lists, plus a
`broken` flag under which every store access fails (modelling a MongoDB
connection/access error, the `Err` branch of the `?` operators in
`db_service.rs`). -/
structure Store where
  novels : List Novel
  chapters : List Chapter
  characters : List Character
  qa : List QA
  broken : Bool
deriving DecidableEq

def emptyStore : Store := ⟨[], [], [], [], false⟩

inductive DbError where
  | storeAccess
  | oidParse
  | notFound
deriving DecidableEq

/-- The display text the `anyhow` errors carry (used by the `format!`
wrappers in `server.rs`). -/
def DbError.msg : DbError → String
  | .storeAccess => "connection error"
  | .oidParse => "invalid ObjectId"
  | .notFound => "Chapter not found"

/-! ## Abstract MongoDB matchers

The `$text` full-text matcher and the `$regex` matcher are implemented
by MongoDB, outside this repository.  They are abstracted as boolean
predicates, bundled with the serializers (`serde_json::to_string*`) and
the two regex-based extraction steps of the parser. -/

structure MongoEnv where
  /-- Models `$text` search over the joined keyword list, per collection. -/
  novelText : List (List Char) → Novel → Bool
  chapterText : List (List Char) → Chapter → Bool
  characterText : List (List Char) → Character → Bool
  qaText : List (List Char) → QA → Bool
  /-- Models `{"$regex": pattern, "$options": "i"}` applied to one text field:
  `regexMatchI pattern field`. -/
  regexMatchI : String → String → Bool
  /-- Models `serde_json::to_string(&result.content)` of a one-element text
  content vector, as used when a `CallToolResult` is converted to an
  `MCPResult`. -/
  serializeContent : String → String
  /-- Models `serde_json::to_string_pretty` of one chapter / one character. -/
  serializeChapterJson : Chapter → String
  serializeCharacterJson : Character → String
  /-- Models `serde_json::to_string_pretty` fallback in `format_content_for_llm`. -/
  serializeRecords : List String → String
  /-- Models `QueryParser::extract_filters` / `extract_limit` (regex scans). -/
  filtersOf : List Char → SearchFilters
  limitOf : List Char → Option Nat

/-- A concrete environment for closed counterexamples: matchers reject
everything, serializers are trivial. -/
def trivEnv : MongoEnv :=
  { novelText := fun _ _ => false
    chapterText := fun _ _ => false
    characterText := fun _ _ => false
    qaText := fun _ _ => false
    regexMatchI := fun _ _ => false
    serializeContent := fun s => s
    serializeChapterJson := fun _ => ""
    serializeCharacterJson := fun _ => ""
    serializeRecords := fun _ => ""
    filtersOf := fun _ => ⟨none, none, none⟩
    limitOf := fun _ => none }

/-! ## SearchExecutor (`src/services/db_service.rs`) -/

/-- The compiled find filter of `search_novels` (lines 104–115):
`$text` over the joined keywords (absent when `keywords` is empty),
plus `tags: {$in: tags}` when the tags filter is present. -/
def novelFilter (env : MongoEnv) (params : SearchParams) (n : Novel) : Bool :=
  (params.keywords.isEmpty || env.novelText params.keywords n) &&
  (match params.filters with
   | some f =>
     match f.tags with
     | some ts => n.tags.any (fun t => ts.contains t)
     | none => true
   | none => true)

/-- Filter of `search_chapters` (lines 143–157): `$text` plus
`novel_id` equality — inserted only when the filter string parses as an
`ObjectId`. -/
def chapterFilter (env : MongoEnv) (params : SearchParams) (c : Chapter) : Bool :=
  (params.keywords.isEmpty || env.chapterText params.keywords c) &&
  (match params.filters with
   | some f =>
     match f.novel_id with
     | some nid =>
       match parseObjectId nid with
       | some oid => c.novel_id == oid
       | none => true
     | none => true
   | none => true)

/-- Filter of `search_characters` (lines 196–214): `$text`, `novel_id`
equality, and a case-insensitive name regex. -/
def characterFilter (env : MongoEnv) (params : SearchParams) (c : Character) : Bool :=
  (params.keywords.isEmpty || env.characterText params.keywords c) &&
  (match params.filters with
   | some f =>
     (match f.novel_id with
      | some nid =>
        match parseObjectId nid with
        | some oid => c.novel_id == oid
        | none => true
      | none => true) &&
     (match f.character_name with
      | some pat => env.regexMatchI pat c.name
      | none => true)
   | none => true)

/-- Filter of `search_qa` (lines 243–261): `$text`, `novel_id`
equality, and `tags: {$in: tags}`. -/
def qaFilter (env : MongoEnv) (params : SearchParams) (q : QA) : Bool :=
  (params.keywords.isEmpty || env.qaText params.keywords q) &&
  (match params.filters with
   | some f =>
     (match f.novel_id with
      | some nid =>
        match parseObjectId nid with
        | some oid => q.novel_id == some oid
        | none => true
      | none => true) &&
     (match f.tags with
      | some ts => q.tags.any (fun t => ts.contains t)
      | none => true)
   | none => true)

/-- Search result as consumed by the callers: the record page plus the
`has_more` flag of `ResponseMetadata` (token count, query time and the
time-derived `next_page_token` carry no information the claims touch). -/
structure SearchResponse (α : Type) where
  data : List α
  has_more : Bool
deriving DecidableEq

/-- Models `search_novels` (`db_service.rs` lines 104–141): fetch `limit + 1`
records (default limit 5), set `has_more` when the extra record arrived,
and `pop` it before returning. -/
def search_novels (env : MongoEnv) (st : Store) (params : SearchParams) :
    Except DbError (SearchResponse Novel) :=
  if st.broken then .error .storeAccess else
  let limit := params.limit.getD 5
  let fetched := (st.novels.filter (novelFilter env params)).take (limit + 1)
  let has_more := decide (limit < fetched.length)
  .ok ⟨if has_more then fetched.dropLast else fetched, has_more⟩

/-- Models `search_chapters` (lines 143–194): sort by chapter number, fetch
`limit + 1` (default 3), strip `content` from every record, `pop` the
extra one.  MongoDB applies the sort before the limit. -/
def search_chapters (env : MongoEnv) (st : Store) (params : SearchParams) :
    Except DbError (SearchResponse Chapter) :=
  if st.broken then .error .storeAccess else
  let limit := params.limit.getD 3
  let sorted := (st.chapters.filter (chapterFilter env params)).insertionSort
    (fun a b => a.number ≤ b.number)
  let fetched := (sorted.take (limit + 1)).map fun c => { c with content := none }
  let has_more := decide (limit < fetched.length)
  .ok ⟨if has_more then fetched.dropLast else fetched, has_more⟩

/-- Models `search_characters` (lines 196–241): sort by name, fetch `limit + 1`
(default 5), `pop` the extra one. -/
def search_characters (env : MongoEnv) (st : Store) (params : SearchParams) :
    Except DbError (SearchResponse Character) :=
  if st.broken then .error .storeAccess else
  let limit := params.limit.getD 5
  let sorted := (st.characters.filter (characterFilter env params)).insertionSort
    (fun a b => ¬ b.name < a.name)
  let fetched := sorted.take (limit + 1)
  let has_more := decide (limit < fetched.length)
  .ok ⟨if has_more then fetched.dropLast else fetched, has_more⟩

/-- Models `search_qa` (lines 243–287): fetch `limit + 1` (default 3), `pop`
the extra one. -/
def search_qa (env : MongoEnv) (st : Store) (params : SearchParams) :
    Except DbError (SearchResponse QA) :=
  if st.broken then .error .storeAccess else
  let limit := params.limit.getD 3
  let fetched := (st.qa.filter (qaFilter env params)).take (limit + 1)
  let has_more := decide (limit < fetched.length)
  .ok ⟨if has_more then fetched.dropLast else fetched, has_more⟩

/-- Models `search_qa_by_regex` (lines 289–310): `$or` of the case-insensitive
pattern over `question` and `answer`; `find` with *no* limit and no
sort — every matching record is returned. -/
def search_qa_by_regex (env : MongoEnv) (st : Store) (pattern : String) :
    Except DbError (List QA) :=
  if st.broken then .error .storeAccess else
  .ok (st.qa.filter fun q => env.regexMatchI pattern q.question || env.regexMatchI pattern q.answer)

/-- Models `search_chapters_by_regex` (lines 312–338): `$or` over `title`,
`summary` and `key_points` (an array field matches when any element
matches); no limit; projection `{content: 0}` strips the long-form
text. -/
def search_chapters_by_regex (env : MongoEnv) (st : Store) (pattern : String) :
    Except DbError (List Chapter) :=
  if st.broken then .error .storeAccess else
  .ok (((st.chapters.filter fun c =>
      env.regexMatchI pattern c.title || env.regexMatchI pattern c.summary ||
      c.key_points.any (fun p => env.regexMatchI pattern p))).map
    fun c => { c with content := none })

/-- Models `search_characters_by_regex` (lines 340–362): `$or` over `name`,
`description` and `key_traits`; no limit, no projection. -/
def search_characters_by_regex (env : MongoEnv) (st : Store) (pattern : String) :
    Except DbError (List Character) :=
  if st.broken then .error .storeAccess else
  .ok (st.characters.filter fun c =>
    env.regexMatchI pattern c.name || env.regexMatchI pattern c.description ||
    c.key_traits.any (fun p => env.regexMatchI pattern p))

/-- The single filtered `update_one` on the chapters collection: replace
the `summary` of the first record whose `_id` equals `oid`; returns the
new collection and the matched count (0 or 1). -/
def updateOneChapterSummary (chs : List Chapter) (oid : ObjectId) (s : String) :
    List Chapter × Nat :=
  match chs with
  | [] => ([], 0)
  | c :: rest =>
    if c.id == some oid then ({ c with summary := s } :: rest, 1)
    else
      let (rest', n) := updateOneChapterSummary rest oid s
      (c :: rest', n)

/-- Models `update_chapter_summary` (`db_service.rs` lines 364–384): parse the
identifier (`?` propagates a parse failure), run the single filtered
update, and report `matched_count == 0` as a "Chapter not found"
failure. -/
def update_chapter_summary (st : Store) (chapter_id new_summary : String) :
    Except DbError Store :=
  match parseObjectId chapter_id with
  | none => .error .oidParse
  | some oid =>
    if st.broken then .error .storeAccess else
    let (chs, matched) := updateOneChapterSummary st.chapters oid new_summary
    if matched = 0 then .error .notFound
    else .ok { st with chapters := chs }

/-- Models `get_chapter_content` (`db_service.rs` lines 418–441): a malformed
identifier resolves to `none` (not an error); a found chapter yields its
content, or `"Summary: …"` when `content` is absent (the irrefutable
`if let summary = chapter.summary` in the source makes the final
"No content or summary" arm unreachable). -/
def get_chapter_content (st : Store) (chapter_id : String) :
    Except DbError (Option String) :=
  match parseObjectId chapter_id with
  | none => .ok none
  | some oid =>
    if st.broken then .error .storeAccess else
    match st.chapters.find? (fun c => c.id == some oid) with
    | some c =>
      match c.content with
      | some content => .ok (some content)
      | none => .ok (some ("Summary: " ++ c.summary))
    | none => .ok none

/-- Models `get_character_details` (`db_service.rs` lines 443–457). -/
def get_character_details (st : Store) (character_id : String) :
    Except DbError (Option Character) :=
  match parseObjectId character_id with
  | none => .ok none
  | some oid =>
    if st.broken then .error .storeAccess else
    .ok (st.characters.find? fun c => c.id == some oid)

/-! ## ResponseFormatter (`src/mcp/server.rs`, module `formatting`)

The Rust formatters walk `serde_json::Value` arrays produced by
serializing the typed entities; for typed data every required field is
present, so the `if let Some(title) = …` guards always succeed and the
`unwrap_or("Unknown …")` placeholders are not taken.  The model
therefore formats the typed records directly. -/

def format_novels (items : List Novel) : String :=
  "Found " ++ toString items.length ++ " novels:\n\n" ++
  String.join (items.enum.map fun p =>
    toString (p.1 + 1) ++ ". \"" ++ p.2.title ++ "\" by " ++ p.2.author ++ "\n" ++
    "   Summary: " ++ p.2.summary ++ "\n\n")

def format_chapters (items : List Chapter) : String :=
  "Found " ++ toString items.length ++ " chapters:\n\n" ++
  String.join (items.map fun c =>
    "Chapter " ++ toString c.number ++ ": " ++ c.title ++ "\n" ++
    "   Summary: " ++ c.summary ++ "\n\n" ++
    (if c.key_points.isEmpty then ""
     else "   Key points:\n" ++
       String.join (c.key_points.map fun pt => "   - " ++ pt ++ "\n") ++ "\n"))

def format_characters (items : List Character) : String :=
  "Found " ++ toString items.length ++ " characters:\n\n" ++
  String.join (items.enum.map fun p =>
    toString (p.1 + 1) ++ ". " ++ p.2.name ++ " (" ++ p.2.role ++ ")\n" ++
    "   Description: " ++ p.2.description ++ "\n" ++
    (if p.2.key_traits.isEmpty then ""
     else "   Key traits: " ++ String.intercalate ", " p.2.key_traits ++ "\n") ++
    (if p.2.relationships.isEmpty then ""
     else "   Relationships:\n" ++
       String.join (p.2.relationships.map fun r =>
         "   - " ++ r.character_name ++ " (" ++ r.relationship_type ++ ")\n")) ++
    "\n")

def format_qa (items : List QA) : String :=
  "Found " ++ toString items.length ++ " Q&A entries:\n\n" ++
  String.join (items.enum.map fun p =>
    "Q" ++ toString (p.1 + 1) ++ ": " ++ p.2.question ++ "\n" ++
    "A: " ++ p.2.answer ++ "\n\n")

/-- A result array carried into `format_content_for_llm`, tagged by the
entity kind it serializes (in every reachable flow the kind agrees with
`params.collection`). -/
inductive Records where
  | novels (l : List Novel)
  | chapters (l : List Chapter)
  | characters (l : List Character)
  | qa (l : List QA)
deriving DecidableEq

def Records.isEmpty : Records → Bool
  | .novels l => l.isEmpty
  | .chapters l => l.isEmpty
  | .characters l => l.isEmpty
  | .qa l => l.isEmpty

/-- Models `formatting::format_content_for_llm` (`server.rs` lines 36–53): an
empty result array short-circuits — before the per-collection dispatch —
to the fixed collection-named "no results" message; otherwise dispatch
on `params.collection` (the `_` arm pretty-prints the raw data through
`serde`, abstracted by `env.serializeRecords`). -/
def format_content_for_llm (env : MongoEnv) (data : Records) (params : SearchParams) : String :=
  if data.isEmpty then
    "No results found for your query about " ++ params.collection ++ "."
  else
    match params.collection, data with
    | "novels", .novels l => format_novels l
    | "chapters", .chapters l => format_chapters l
    | "characters", .characters l => format_characters l
    | "qa", .qa l => format_qa l
    | _, _ => "Results for " ++ params.collection ++ ": " ++ env.serializeRecords []

/-! ## MCP server tool methods (`src/mcp/server.rs`) -/

/-- Models `MCPDatabaseServer::query` (`server.rs` lines 206–235): parse the
natural-language query, run the collection's search, and format.  Domain
failures are strings (the `Err(format!(…))` branches). -/
def serverQuery (env : MongoEnv) (st : Store) (q : List Char) : Except String String :=
  let params := parse_natural_language_query env.filtersOf env.limitOf q
  match params.collection, params with
  | "novels", params =>
    match search_novels env st params with
    | .error e => .error ("Database error: " ++ e.msg)
    | .ok r => .ok (format_content_for_llm env (.novels r.data) params)
  | "chapters", params =>
    match search_chapters env st params with
    | .error e => .error ("Database error: " ++ e.msg)
    | .ok r => .ok (format_content_for_llm env (.chapters r.data) params)
  | "characters", params =>
    match search_characters env st params with
    | .error e => .error ("Database error: " ++ e.msg)
    | .ok r => .ok (format_content_for_llm env (.characters r.data) params)
  | "qa", params =>
    match search_qa env st params with
    | .error e => .error ("Database error: " ++ e.msg)
    | .ok r => .ok (format_content_for_llm env (.qa r.data) params)
  | other, _ => .error ("Unknown collection type: " ++ other)

/-- Models `MCPDatabaseServer::get_chapter_content` (`server.rs` lines
238–252): the chapter is looked up through `search_chapters_by_regex`
with the anchored pattern `^{id}$`, and the first hit (if any) is
pretty-printed. -/
def serverGetChapterContent (env : MongoEnv) (st : Store) (chapter_id : String) :
    Except String String :=
  match search_chapters_by_regex env st ("^" ++ chapter_id ++ "$") with
  | .error e => .error ("Failed to retrieve chapter: " ++ e.msg)
  | .ok chapters =>
    match chapters.head? with
    | some c => .ok (env.serializeChapterJson c)
    | none => .error ("Chapter with ID " ++ chapter_id ++ " not found")

/-- Models `MCPDatabaseServer::get_character_details` (lines 255–269). -/
def serverGetCharacterDetails (env : MongoEnv) (st : Store) (character_id : String) :
    Except String String :=
  match search_characters_by_regex env st ("^" ++ character_id ++ "$") with
  | .error e => .error ("Failed to retrieve character: " ++ e.msg)
  | .ok characters =>
    match characters.head? with
    | some c => .ok (env.serializeCharacterJson c)
    | none => .error ("Character with ID " ++ character_id ++ " not found")

/-- Models `MCPDatabaseServer::query_qa_regex` (lines 272–278). -/
def serverQueryQaRegex (env : MongoEnv) (st : Store) (pattern : String) :
    Except String String :=
  match search_qa_by_regex env st pattern with
  | .error e => .error ("Failed to search Q&A entries: " ++ e.msg)
  | .ok entries => .ok (format_qa entries)

/-- Models `MCPDatabaseServer::query_chapter_regex` (lines 281–287). -/
def serverQueryChapterRegex (env : MongoEnv) (st : Store) (pattern : String) :
    Except String String :=
  match search_chapters_by_regex env st pattern with
  | .error e => .error ("Failed to search chapters: " ++ e.msg)
  | .ok chapters => .ok (format_chapters chapters)

/-- Models `MCPDatabaseServer::query_character_regex` (lines 290–296). -/
def serverQueryCharacterRegex (env : MongoEnv) (st : Store) (pattern : String) :
    Except String String :=
  match search_characters_by_regex env st pattern with
  | .error e => .error ("Failed to search characters: " ++ e.msg)
  | .ok characters => .ok (format_characters characters)

/-- The `#[cfg(feature = "mcp_write_access")]` tool
`MCPDatabaseServer::update_chapter_summary` (`server.rs` lines
298–318): token check against the compiled-in trusted token, then the
single filtered update.  Returns the outcome together with the
(possibly updated) store. -/
def serverUpdateChapterSummaryTool (st : Store) (chapter_id summary auth_token : String) :
    Except String String × Store :=
  if auth_token ≠ "trusted_llm_token" then
    (.error "Invalid or missing authentication token", st)
  else
    match update_chapter_summary st chapter_id summary with
    | .error e => (.error ("Failed to update chapter summary: " ++ e.msg), st)
    | .ok st' => (.ok "Chapter summary updated successfully", st')

/-! ## JSON-RPC protocol shapes (`src/mcp/protocol.rs`) -/

/-- A JSON value in the positions the dispatcher inspects (`id` values
and `options` entries, read through `Value::as_str`). -/
inductive JVal where
  | str (s : String)
  | num (n : Int)
  | other
deriving DecidableEq

/-- Models `MCPParams`.  `protocol.rs` declares `query: String`, but every use
in `rmcp_handler.rs` and `conversion.rs` matches it as an `Option`
(`if let Some(query) = &params.query`), which is the behaviour the
claims cite; the model follows the handler.  The unused `context` field
is dropped. -/
structure MCPParams where
  query : Option String
  options : List (String × JVal)
deriving DecidableEq

/-- Models `HashMap::get(key).and_then(Value::as_str)`. -/
def getStrOption (opts : List (String × JVal)) (key : String) : Option String :=
  match opts.find? (fun p => p.1 == key) with
  | some (_, .str s) => some s
  | _ => none

structure MCPRequest where
  jsonrpc : String
  id : Option JVal
  method : String
  params : MCPParams
deriving DecidableEq

/-- Models `MCPResult`; the `metadata` map carries no claim-relevant data and
is dropped. -/
structure MCPResult where
  content : String
deriving DecidableEq

structure MCPError where
  code : Int
  message : String
deriving DecidableEq

structure MCPResponse where
  jsonrpc : String
  id : Option JVal
  result : Option MCPResult
  error : Option MCPError
deriving DecidableEq

/-- Terminal outcome of `rmcp_http_handler` for a body that decoded as
UTF-8: either a JSON-RPC response body (HTTP 200), or the empty
`204 No Content` reply of `format_notification_received`. -/
inductive HttpOutcome where
  | ok (resp : MCPResponse)
  | noContent
deriving DecidableEq

/-! ## HTTP dispatcher (`src/handlers/rmcp_handler.rs`) -/

/-- Models `handle_query` (lines 159–175); errors are converted by
`convert_error` from `rmcp::Error::invalid_params`, whose code is
`-32602`. -/
def handle_query (env : MongoEnv) (st : Store) (params : MCPParams) :
    Except MCPError MCPResult :=
  match params.query with
  | some q =>
    match serverQuery env st q.data with
    | .ok content => .ok ⟨env.serializeContent content⟩
    | .error e => .error ⟨-32602, e⟩
  | none => .error ⟨-32602, "Missing query parameter"⟩

/-- Models `handle_chapter_content` (lines 178–195). -/
def handle_chapter_content (env : MongoEnv) (st : Store) (params : MCPParams) :
    Except MCPError MCPResult :=
  match getStrOption params.options "chapter_id" with
  | none => .error ⟨-32602, "Missing chapter_id parameter"⟩
  | some cid =>
    match serverGetChapterContent env st cid with
    | .ok content => .ok ⟨env.serializeContent content⟩
    | .error e => .error ⟨-32602, e⟩

/-- Models `handle_character_details` (lines 198–215). -/
def handle_character_details (env : MongoEnv) (st : Store) (params : MCPParams) :
    Except MCPError MCPResult :=
  match getStrOption params.options "character_id" with
  | none => .error ⟨-32602, "Missing character_id parameter"⟩
  | some cid =>
    match serverGetCharacterDetails env st cid with
    | .ok content => .ok ⟨env.serializeContent content⟩
    | .error e => .error ⟨-32602, e⟩

/-- Models `handle_qa_regex` (lines 218–235). -/
def handle_qa_regex (env : MongoEnv) (st : Store) (params : MCPParams) :
    Except MCPError MCPResult :=
  match getStrOption params.options "regex_pattern" with
  | none => .error ⟨-32602, "Missing regex_pattern parameter"⟩
  | some pat =>
    match serverQueryQaRegex env st pat with
    | .ok content => .ok ⟨env.serializeContent content⟩
    | .error e => .error ⟨-32602, e⟩

/-- Models `handle_chapter_regex` (lines 238–255). -/
def handle_chapter_regex (env : MongoEnv) (st : Store) (params : MCPParams) :
    Except MCPError MCPResult :=
  match getStrOption params.options "regex_pattern" with
  | none => .error ⟨-32602, "Missing regex_pattern parameter"⟩
  | some pat =>
    match serverQueryChapterRegex env st pat with
    | .ok content => .ok ⟨env.serializeContent content⟩
    | .error e => .error ⟨-32602, e⟩

/-- Models `handle_character_regex` (lines 258–275). -/
def handle_character_regex (env : MongoEnv) (st : Store) (params : MCPParams) :
    Except MCPError MCPResult :=
  match getStrOption params.options "regex_pattern" with
  | none => .error ⟨-32602, "Missing regex_pattern parameter"⟩
  | some pat =>
    match serverQueryCharacterRegex env st pat with
    | .ok content => .ok ⟨env.serializeContent content⟩
    | .error e => .error ⟨-32602, e⟩

/-- Models `MCPDatabaseServer::handle_chapter_summary_update` (`server.rs`
lines 416–443) composed with the dispatcher's parameter extraction
(`rmcp_handler.rs` lines 278–303).  With the `mcp_write_access` feature
(modelled as the `writeAccess` flag): the HTTP path passes the hardcoded
trusted token and maps tool failures through `Error::invalid_params`
(`-32602`).  Without the feature: a fixed error with numeric code `403`
("Write access not enabled in this build"). -/
def handle_chapter_summary_update (env : MongoEnv) (writeAccess : Bool) (st : Store)
    (params : MCPParams) : (Except MCPError MCPResult) × Store :=
  match getStrOption params.options "chapter_id" with
  | none => (.error ⟨-32602, "Missing chapter_id parameter"⟩, st)
  | some cid =>
    match getStrOption params.options "summary" with
    | none => (.error ⟨-32602, "Missing summary parameter"⟩, st)
    | some s =>
      if writeAccess then
        match serverUpdateChapterSummaryTool st cid s "trusted_llm_token" with
        | (.ok msg, st') => (.ok ⟨env.serializeContent msg⟩, st')
        | (.error e, st') => (.error ⟨-32602, e⟩, st')
      else
        (.error ⟨403, "Write access not enabled in this build"⟩, st)

/-- The five fixed prompt strings of `handle_prompts` (lines 334–349). -/
def promptStrings : List String :=
  ["Search for chapters about dragons",
   "Find characters with supernatural abilities",
   "Get information about the magic system",
   "Retrieve Q&A entries about world history",
   "Find all chapters where a specific character appears"]

/-- Wrap a handler outcome into the JSON-RPC response envelope
(`rmcp_handler.rs` lines 111–130): exactly one of `result`/`error` is
populated, and the request's `id` (possibly absent) is echoed. -/
def wrapResponse (id : Option JVal) : Except MCPError MCPResult → HttpOutcome
  | .ok r => .ok ⟨"2.0", id, some r, none⟩
  | .error e => .ok ⟨"2.0", id, none, some e⟩

/-- Models `rmcp_http_handler` (`rmcp_handler.rs` lines 34–156) from the point
where the body is a UTF-8 string: `none` models a body that failed to
parse as an `MCPRequest` (JSON-RPC parse error, code `-32700` with null
`id`); then the version gate, then the fixed method route table.  The
returned store reflects the single mutating method. -/
def rmcp_http_handler (env : MongoEnv) (writeAccess : Bool) (st : Store)
    (body : Option MCPRequest) : HttpOutcome × Store :=
  match body with
  | none => (.ok ⟨"2.0", none, none, some ⟨-32700, "Invalid JSON in request body"⟩⟩, st)
  | some req =>
    if req.jsonrpc ≠ "2.0" then
      (.ok ⟨"2.0", req.id, none, some ⟨-32600, "Invalid JSON-RPC version. Expected 2.0"⟩⟩, st)
    else
      match req.method with
      | "query" => (wrapResponse req.id (handle_query env st req.params), st)
      | "get_chapter_content" => (wrapResponse req.id (handle_chapter_content env st req.params), st)
      | "get_character_details" => (wrapResponse req.id (handle_character_details env st req.params), st)
      | "query_qa_regex" => (wrapResponse req.id (handle_qa_regex env st req.params), st)
      | "query_chapter_regex" => (wrapResponse req.id (handle_chapter_regex env st req.params), st)
      | "query_character_regex" => (wrapResponse req.id (handle_character_regex env st req.params), st)
      | "update_chapter_summary" =>
        let (r, st') := handle_chapter_summary_update env writeAccess st req.params
        (wrapResponse req.id r, st')
      | "mcp.capabilities" => (wrapResponse req.id (.ok ⟨""⟩), st)
      | "mcp.prompts" => (wrapResponse req.id (.ok ⟨String.intercalate "\n" promptStrings⟩), st)
      | "initialize" => (wrapResponse req.id (.ok ⟨""⟩), st)
      | "notifications/initialized" =>
        if req.id.isNone then (.noContent, st)
        else (wrapResponse req.id (.ok ⟨""⟩), st)
      | other => (wrapResponse req.id (.error ⟨-32601, "Method not found: " ++ other⟩), st)

/-- The error (if any) carried by a dispatcher outcome. -/
def HttpOutcome.errorOf : HttpOutcome → Option MCPError
  | .ok resp => resp.error
  | .noContent => none

/-! ## SDK `call_tool` dispatcher (`src/handlers/mcp_handler.rs`) -/

/-- Terminal behaviour of one `call_tool` dispatch: a content payload,
an `rmcp::Error` (code, message), or a process panic. -/
inductive ToolOutcome where
  | ok (s : String)
  | err (code : Int) (msg : String)
  | panics
deriving DecidableEq

/-- The `"get_chapter_content"` arm of `MpcHandler::call_tool`
(`mcp_handler.rs` lines 619–632): extract `chapter_id` (else
`invalid_params`, `-32602`), fetch through the service (store failure →
`internal_error`, `-32603`), then `Content::from_raw(result.unwrap())` —
the `unwrap` panics whenever the service resolved the identifier to
`None` (malformed identifier or no matching chapter). -/
def callToolGetChapterContent (st : Store) (args : List (String × JVal)) : ToolOutcome :=
  match getStrOption args "chapter_id" with
  | none => .err (-32602) "Missing 'chapter_id' parameter"
  | some cid =>
    match get_chapter_content st cid with
    | .error e => .err (-32603) ("Database error: " ++ e.msg)
    | .ok (some s) => .ok s
    | .ok none => .panics

/-- The method names of the dispatcher's fixed route table
(`rmcp_handler.rs` lines 80–103). -/
def routedMethods : List String :=
  ["query", "get_chapter_content", "get_character_details", "query_qa_regex",
   "query_chapter_regex", "query_character_regex", "update_chapter_summary",
   "mcp.capabilities", "mcp.prompts", "initialize", "notifications/initialized"]

/-! ## Concrete fixtures for closed counterexamples and witnesses -/

def brokenStore : Store := ⟨[], [], [], [], true⟩

def hex24 : String := "aaaaaaaaaaaaaaaaaaaaaaaa"

def sampleChapter : Chapter :=
  ⟨some ⟨hex24⟩, ⟨"bbbbbbbbbbbbbbbbbbbbbbbb"⟩, 1, "Opening", "start", [], none⟩

def oneChapterStore : Store := ⟨[], [sampleChapter], [], [], false⟩

def reqNoIdUnknown : MCPRequest := ⟨"2.0", none, "nonexistent_method", ⟨none, []⟩⟩

def reqQueryBroken : MCPRequest := ⟨"2.0", some (.num 1), "query", ⟨some "x", []⟩⟩

def reqUpdateSummary : MCPRequest :=
  ⟨"2.0", some (.num 1), "update_chapter_summary",
   ⟨none, [("chapter_id", .str "zzz"), ("summary", .str "s")]⟩⟩

def witnessParams : SearchParams := ⟨"novels", "search", [], none, some 0⟩

def oneNovelStore : Store :=
  ⟨[⟨some ⟨hex24⟩, "T", "A", "S", [], none⟩], [], [], [], false⟩

/-! ## Shared lemmas -/

lemma page_len_le (l : List α) (L : Nat) :
    (if L < (l.take (L + 1)).length then (l.take (L + 1)).dropLast else l.take (L + 1)).length ≤ L := by
  by_cases h : L < (l.take (L + 1)).length
  · simp only [if_pos h, List.length_dropLast]
    have := List.length_take_le (L + 1) l
    omega
  · simp only [if_neg h]
    omega

lemma page_hasMore (l : List α) (L : Nat) :
    (decide (L < (l.take (L + 1)).length) = true) ↔ L + 1 ≤ l.length := by
  rw [decide_eq_true_iff]
  rw [List.length_take]
  omega

/-- The over-fetch-by-one page: at most `L` records survive, and the
over-fetch detected a further page exactly when at least `L + 1` records
matched. -/
lemma overfetch_spec (l : List α) (L : Nat) :
    (if decide (L < (l.take (L + 1)).length) = true then (l.take (L + 1)).dropLast
     else l.take (L + 1)).length ≤ L ∧
    ((decide (L < (l.take (L + 1)).length)) = true ↔ L + 1 ≤ l.length) := by
  constructor
  · have := page_len_le l L
    by_cases h : L < (l.take (L + 1)).length
    · simpa [h] using this
    · simpa [h] using this
  · exact page_hasMore l L

/-- Variant of `overfetch_spec` with a per-record projection applied to
the fetched page (the chapters search strips `content`). -/
lemma overfetch_spec_map (l : List α) (f : α → β) (L : Nat) :
    (if decide (L < ((l.take (L + 1)).map f).length) = true then ((l.take (L + 1)).map f).dropLast
     else (l.take (L + 1)).map f).length ≤ L ∧
    ((decide (L < ((l.take (L + 1)).map f).length)) = true ↔ L + 1 ≤ l.length) := by
  constructor
  · by_cases hc : L < ((l.take (L + 1)).map f).length
    · rw [if_pos (by simpa using hc), List.length_dropLast]
      have := List.length_take_le (L + 1) l
      rw [List.length_map, List.length_take] at hc ⊢
      omega
    · rw [if_neg (by simpa using hc)]
      rw [List.length_map, List.length_take] at hc ⊢
      omega
  · rw [decide_eq_true_iff, List.length_map, List.length_take]
    omega

/-! ## Claim theorems -/

/-- Claim C3: For every executed collection search with effective limit
`L` (the explicit limit when given, otherwise the per-collection default:
novels 5, chapters 3, characters 5, qa 3), the returned record list has
at most `L` records, and `has_more = true` exactly when the store holds
at least `L + 1` matching records; the executor fetches `L + 1` records
and discards the extra one. -/
theorem c3_overfetch_by_one (env : MongoEnv) (st : Store) (params : SearchParams) :
    (∀ r, search_novels env st params = .ok r →
      r.data.length ≤ params.limit.getD 5 ∧
      (r.has_more = true ↔
        params.limit.getD 5 + 1 ≤ (st.novels.filter (novelFilter env params)).length)) ∧
    (∀ r, search_chapters env st params = .ok r →
      r.data.length ≤ params.limit.getD 3 ∧
      (r.has_more = true ↔
        params.limit.getD 3 + 1 ≤ (st.chapters.filter (chapterFilter env params)).length)) ∧
    (∀ r, search_characters env st params = .ok r →
      r.data.length ≤ params.limit.getD 5 ∧
      (r.has_more = true ↔
        params.limit.getD 5 + 1 ≤ (st.characters.filter (characterFilter env params)).length)) ∧
    (∀ r, search_qa env st params = .ok r →
      r.data.length ≤ params.limit.getD 3 ∧
      (r.has_more = true ↔
        params.limit.getD 3 + 1 ≤ (st.qa.filter (qaFilter env params)).length)) := by
  refine ⟨?_, ?_, ?_, ?_⟩
  · intro r h
    by_cases hb : st.broken = true
    · simp [search_novels, hb] at h
    · rw [Bool.not_eq_true] at hb
      simp only [search_novels, hb, Bool.false_eq_true, if_false, Except.ok.injEq] at h
      subst h
      exact overfetch_spec _ _
  · intro r h
    by_cases hb : st.broken = true
    · simp [search_chapters, hb] at h
    · rw [Bool.not_eq_true] at hb
      simp only [search_chapters, hb, Bool.false_eq_true, if_false, Except.ok.injEq] at h
      subst h
      have h2 := overfetch_spec_map
        ((st.chapters.filter (chapterFilter env params)).insertionSort
          (fun a b => a.number ≤ b.number))
        (fun c => { c with content := none }) (params.limit.getD 3)
      rw [List.length_insertionSort] at h2
      exact h2
  · intro r h
    by_cases hb : st.broken = true
    · simp [search_characters, hb] at h
    · rw [Bool.not_eq_true] at hb
      simp only [search_characters, hb, Bool.false_eq_true, if_false, Except.ok.injEq] at h
      subst h
      have h2 := overfetch_spec
        ((st.characters.filter (characterFilter env params)).insertionSort
          (fun a b => ¬ b.name < a.name))
        (params.limit.getD 5)
      rw [List.length_insertionSort] at h2
      exact h2
  · intro r h
    by_cases hb : st.broken = true
    · simp [search_qa, hb] at h
    · rw [Bool.not_eq_true] at hb
      simp only [search_qa, hb, Bool.false_eq_true, if_false, Except.ok.injEq] at h
      subst h
      exact overfetch_spec _ _

/-- Witness for C3 at a concrete store and explicit limit 0. -/
theorem c3_overfetch_by_one_witness :
    (⟨[], true⟩ : SearchResponse Novel).data.length ≤ witnessParams.limit.getD 5 ∧
    ((⟨[], true⟩ : SearchResponse Novel).has_more = true ↔
      witnessParams.limit.getD 5 + 1 ≤
        (oneNovelStore.novels.filter (novelFilter trivEnv witnessParams)).length) :=
  (c3_overfetch_by_one trivEnv oneNovelStore witnessParams).1 ⟨[], true⟩ (by rfl)

/-- Claim C4: The spec requires that request handling below the dispatcher
never panics; the code does panic.  The `"get_chapter_content"` arm of
`call_tool` unwraps the service's `Option` result, which is `None` both
for a malformed identifier (`"zzz"`) and for a well-formed identifier
with no matching chapter (`hex24` against the empty store) — `unwrap`
panics in both cases.  Additionally `truncate_text` slices at a byte
index that need not be a character boundary: truncating the two-character
string `"aé"` to 2 bytes panics (modelled as `none`). -/
theorem c4_panics_below_dispatcher :
    callToolGetChapterContent emptyStore [("chapter_id", JVal.str "zzz")] = ToolOutcome.panics ∧
    callToolGetChapterContent emptyStore [("chapter_id", JVal.str hex24)] = ToolOutcome.panics ∧
    truncate_text "aé".data 2 = none := by
  decide

/-- Claim C9: Formatting an empty record sequence (any entity kind) yields
the fixed non-empty message naming the collection. -/
theorem c9_empty_format (env : MongoEnv) (params : SearchParams) (data : Records)
    (h : data.isEmpty = true) :
    format_content_for_llm env data params =
      "No results found for your query about " ++ params.collection ++ "." ∧
    format_content_for_llm env data params ≠ "" := by
  unfold format_content_for_llm
  rw [if_pos h]
  refine ⟨rfl, ?_⟩
  intro hcontra
  have hlen := congrArg String.length hcontra
  rw [String.length_append, String.length_append] at hlen
  have h1 : ("No results found for your query about ").length = 38 := rfl
  have h2 : (".").length = 1 := rfl
  have h3 : ("").length = 0 := rfl
  omega

/-- Witness for C9: the empty novels result. -/
theorem c9_empty_format_witness :
    format_content_for_llm trivEnv (.novels []) ⟨"novels", "search", [], none, none⟩ =
      "No results found for your query about " ++
        (⟨"novels", "search", [], none, none⟩ : SearchParams).collection ++ "." ∧
    format_content_for_llm trivEnv (.novels []) ⟨"novels", "search", [], none, none⟩ ≠ "" :=
  c9_empty_format trivEnv ⟨"novels", "search", [], none, none⟩ (.novels []) rfl

/-! ### C5 -/

lemma utf8Len_cons (c : Char) (cs : List Char) :
    utf8Len (c :: cs) = charBytes c + utf8Len cs := by
  simp [utf8Len]

lemma utf8Len_dropWhile_le (p : Char → Bool) (l : List Char) :
    utf8Len (l.dropWhile p) ≤ utf8Len l := by
  induction l with
  | nil => simp [List.dropWhile]
  | cons c cs ih =>
    rw [List.dropWhile_cons]
    by_cases h : p c = true
    · rw [if_pos h, utf8Len_cons]
      omega
    · rw [if_neg h]

lemma utf8Len_reverse (l : List Char) : utf8Len l.reverse = utf8Len l := by
  simp [utf8Len, List.map_reverse, List.sum_reverse]

lemma utf8Len_trim_le (s : List Char) : utf8Len (trimNonAlnum s) ≤ utf8Len s := by
  unfold trimNonAlnum
  rw [utf8Len_reverse]
  calc utf8Len ((s.dropWhile fun c => !isAlnumChar c).reverse.dropWhile fun c => !isAlnumChar c)
      ≤ utf8Len (s.dropWhile fun c => !isAlnumChar c).reverse := utf8Len_dropWhile_le _ _
    _ = utf8Len (s.dropWhile fun c => !isAlnumChar c) := utf8Len_reverse _
    _ ≤ utf8Len s := utf8Len_dropWhile_le _ _

/-- Every stop word is all-alphanumeric, so stripping fixes it. -/
lemma stopWords_trim_fixed : ∀ s ∈ stopWords, trimNonAlnum s = s := by decide

/-- Claim C5, counterexample: The claim says the keyword list consists of
the *stripped* tokens; on the input `"dragon,"` the code keeps the
unstripped token `"dragon,"`, not the stripped `"dragon"` the claim (and
the spec-worded pipeline) predicts. -/
theorem c5_counterexample :
    extract_keywords "dragon,".data = ["dragon,".data] ∧
    extract_keywords_specWording "dragon,".data = ["dragon".data] ∧
    extract_keywords "dragon,".data ≠ extract_keywords_specWording "dragon,".data := by
  decide

/-- Claim C5, amended: The kept keywords are the lowercased,
*unstripped* whitespace tokens whose stripped copy passes the stop-word
and length tests; consequently no kept token is a stop word (nor is its
stripped copy), and every kept token — and its stripped copy — is at
least 3 bytes long. -/
theorem c5_keywords_filtered (q w : List Char) (h : w ∈ extract_keywords q) :
    w ∉ stopWords ∧ trimNonAlnum w ∉ stopWords ∧
    3 ≤ utf8Len (trimNonAlnum w) ∧ 3 ≤ utf8Len w := by
  unfold extract_keywords at h
  rw [List.mem_filter] at h
  obtain ⟨-, hp⟩ := h
  rw [Bool.and_eq_true, Bool.not_eq_true'] at hp
  obtain ⟨hc, hlen⟩ := hp
  rw [decide_eq_true_iff] at hlen
  have htrim : trimNonAlnum w ∉ stopWords := by
    intro hm
    rw [← List.elem_iff] at hm
    have hc' : List.elem (trimNonAlnum w) stopWords = false := hc
    rw [hc'] at hm
    exact Bool.noConfusion hm
  have hw : w ∉ stopWords := by
    intro hm
    exact htrim (by rw [stopWords_trim_fixed w hm]; exact hm)
  exact ⟨hw, htrim, by omega, le_trans (by omega) (utf8Len_trim_le w)⟩

/-- Witness for C5 (amended) at the counterexample token. -/
theorem c5_keywords_filtered_witness :
    "dragon,".data ∉ stopWords ∧ trimNonAlnum "dragon,".data ∉ stopWords ∧
    3 ≤ utf8Len (trimNonAlnum "dragon,".data) ∧ 3 ≤ utf8Len "dragon,".data :=
  c5_keywords_filtered "dragon,".data "dragon,".data (by decide)

/-! ### C6 -/

lemma findByTable_eq (t : List (List Char × String)) (q : List Char) :
    findByTable t q = (t.find? fun e => listHasSub e.1 (q.map lowerChar)).map Prod.snd := by
  induction t with
  | nil => rfl
  | cons e rest ih =>
    obtain ⟨kw, coll⟩ := e
    by_cases h : listHasSub kw (q.map lowerChar) = true
    · simp [findByTable, List.find?_cons, h]
    · simp [findByTable, List.find?_cons, h, ih]

/-- Claim C6: Collection detection scans the fixed table in table order
with case-insensitive substring matching: the parse result's collection
is the second component of the first table entry whose keyword occurs in
the lowercased text, defaulting to `"novels"`.  In the second conjunct
the keyword `"answer"` (table entry 6) occurs *earlier in the text* than
`"chapter"` (table entry 2), yet table order decides: the collection is
`"chapters"`. -/
theorem c6_collection_first_table_match :
    (∀ filtersOf limitOf q,
      (parse_natural_language_query filtersOf limitOf q).collection =
        ((collectionsTable.find? fun e => listHasSub e.1 (q.map lowerChar)).map Prod.snd).getD
          "novels") ∧
    (parse_natural_language_query trivEnv.filtersOf trivEnv.limitOf
        "the answer appears in this chapter".data).collection = "chapters" ∧
    (parse_natural_language_query trivEnv.filtersOf trivEnv.limitOf
        "zzz zzz".data).collection = "novels" := by
  refine ⟨?_, by decide, by decide⟩
  intro fo lo q
  unfold parse_natural_language_query extract_collection
  rw [findByTable_eq]

/-! ### C8 -/

lemma updateOne_of_no_match (chs : List Chapter) (oid : ObjectId) (s : String)
    (h : ∀ c ∈ chs, c.id ≠ some oid) :
    updateOneChapterSummary chs oid s = (chs, 0) := by
  induction chs with
  | nil => rfl
  | cons c rest ih =>
    have hc : (c.id == some oid) = false := by
      simp only [beq_eq_false_iff_ne, ne_eq]
      exact h c (List.mem_cons_self c rest)
    simp [updateOneChapterSummary, hc, ih fun c' hc' => h c' (List.mem_cons_of_mem _ hc')]

lemma updateOne_matched (chs : List Chapter) (oid : ObjectId) (s : String)
    (h : (updateOneChapterSummary chs oid s).2 ≠ 0) :
    ∃ pre c post, chs = pre ++ c :: post ∧ (∀ c' ∈ pre, c'.id ≠ some oid) ∧
      c.id = some oid ∧
      updateOneChapterSummary chs oid s = (pre ++ { c with summary := s } :: post, 1) := by
  induction chs with
  | nil => exact absurd rfl h
  | cons c rest ih =>
    by_cases hc : c.id = some oid
    · refine ⟨[], c, rest, rfl, by simp, hc, ?_⟩
      simp [updateOneChapterSummary, hc]
    · have hcb : (c.id == some oid) = false := by
        simp only [beq_eq_false_iff_ne, ne_eq]
        exact hc
      have h2 : (updateOneChapterSummary rest oid s).2 ≠ 0 := by
        intro h0
        apply h
        simp [updateOneChapterSummary, hcb, h0]
      obtain ⟨pre, c', post, heq, hpre, hid, hupd⟩ := ih h2
      refine ⟨c :: pre, c', post, by rw [heq, List.cons_append], ?_, hid, ?_⟩
      · intro x hx
        rcases List.mem_cons.mp hx with hx | hx
        · rw [hx]; exact hc
        · exact hpre x hx
      · simp [updateOneChapterSummary, hcb, hupd]

/-- Claim C8: `update_chapter_summary` with an identifier matching zero
chapter records never succeeds, and (absent a store failure) reports the
"Chapter not found" error; when it succeeds, exactly one record — the
first whose `_id` matches — had its `summary` field replaced, everything
else unchanged. -/
theorem c8_update_summary_not_found (st : Store) (cid s : String) :
    ((∀ oid, parseObjectId cid = some oid → ∀ c ∈ st.chapters, c.id ≠ some oid) →
      ∀ st', update_chapter_summary st cid s ≠ .ok st') ∧
    (st.broken = false → ∀ oid, parseObjectId cid = some oid →
      (∀ c ∈ st.chapters, c.id ≠ some oid) →
      update_chapter_summary st cid s = .error .notFound) ∧
    (∀ st', update_chapter_summary st cid s = .ok st' →
      ∃ oid pre c post, parseObjectId cid = some oid ∧
        st.chapters = pre ++ c :: post ∧ (∀ c' ∈ pre, c'.id ≠ some oid) ∧
        c.id = some oid ∧
        st' = { st with chapters := pre ++ { c with summary := s } :: post }) := by
  refine ⟨?_, ?_, ?_⟩
  · intro hno st' hok
    unfold update_chapter_summary at hok
    cases hp : parseObjectId cid with
    | none => rw [hp] at hok; exact Except.noConfusion hok
    | some oid =>
      rw [hp] at hok
      dsimp only at hok
      by_cases hb : st.broken = true
      · simp [hb] at hok
      · rw [Bool.not_eq_true] at hb
        rw [updateOne_of_no_match st.chapters oid s (hno oid hp)] at hok
        simp [hb] at hok
  · intro hb oid hp hno
    unfold update_chapter_summary
    rw [hp]
    dsimp only
    rw [updateOne_of_no_match st.chapters oid s hno]
    simp [hb]
  · intro st' hok
    unfold update_chapter_summary at hok
    cases hp : parseObjectId cid with
    | none => rw [hp] at hok; exact Except.noConfusion hok
    | some oid =>
      rw [hp] at hok
      dsimp only at hok
      by_cases hb : st.broken = true
      · simp [hb] at hok
      · rw [Bool.not_eq_true] at hb
        simp only [hb, Bool.false_eq_true, if_false] at hok
        by_cases hm : (updateOneChapterSummary st.chapters oid s).2 = 0
        · rcases hu : updateOneChapterSummary st.chapters oid s with ⟨chs, m⟩
          rw [hu] at hok hm
          dsimp only at hok hm
          rw [hm] at hok
          simp at hok
        · obtain ⟨pre, c, post, heq, hpre, hid, hupd⟩ := updateOne_matched st.chapters oid s hm
          rw [hupd] at hok
          dsimp only at hok
          simp only [if_neg (by omega : ¬ (1 : Nat) = 0)] at hok
          refine ⟨oid, pre, c, post, rfl, heq, hpre, hid, ?_⟩
          rw [Except.ok.injEq] at hok
          rw [← hok, hb]

/-- Witness for C8: the not-found branch at a well-formed identifier
against the empty store. -/
theorem c8_update_summary_not_found_witness :
    update_chapter_summary emptyStore hex24 "s" = .error .notFound :=
  (c8_update_summary_not_found emptyStore hex24 "s").2.1 rfl ⟨hex24⟩ (by decide)
    (by intro c hc; cases hc)

/-! ### C10 -/

/-- Claim C10: The three regex-pattern searches apply no limit and no
pagination: each returns exactly the records whose listed text fields
match (chapters with `content` stripped by the projection), and every
matching record of the store is present in the result. -/
theorem c10_regex_search_unbounded (env : MongoEnv) (st : Store) (pattern : String)
    (h : st.broken = false) :
    (search_qa_by_regex env st pattern =
      .ok (st.qa.filter fun q =>
        env.regexMatchI pattern q.question || env.regexMatchI pattern q.answer) ∧
     ∀ q ∈ st.qa,
       (env.regexMatchI pattern q.question || env.regexMatchI pattern q.answer) = true →
       ∀ l, search_qa_by_regex env st pattern = .ok l → q ∈ l) ∧
    (search_chapters_by_regex env st pattern =
      .ok ((st.chapters.filter fun c =>
        env.regexMatchI pattern c.title || env.regexMatchI pattern c.summary ||
        c.key_points.any fun p => env.regexMatchI pattern p).map fun c =>
          { c with content := none }) ∧
     ∀ c ∈ st.chapters,
       (env.regexMatchI pattern c.title || env.regexMatchI pattern c.summary ||
        c.key_points.any fun p => env.regexMatchI pattern p) = true →
       ∀ l, search_chapters_by_regex env st pattern = .ok l →
         ({ c with content := none } : Chapter) ∈ l) ∧
    (search_characters_by_regex env st pattern =
      .ok (st.characters.filter fun c =>
        env.regexMatchI pattern c.name || env.regexMatchI pattern c.description ||
        c.key_traits.any fun p => env.regexMatchI pattern p) ∧
     ∀ c ∈ st.characters,
       (env.regexMatchI pattern c.name || env.regexMatchI pattern c.description ||
        c.key_traits.any fun p => env.regexMatchI pattern p) = true →
       ∀ l, search_characters_by_regex env st pattern = .ok l → c ∈ l) := by
  refine ⟨⟨?_, ?_⟩, ⟨?_, ?_⟩, ⟨?_, ?_⟩⟩
  · simp [search_qa_by_regex, h]
  · intro q hq hmatch l hl
    simp only [search_qa_by_regex, h, Bool.false_eq_true, if_false, Except.ok.injEq] at hl
    rw [← hl]
    exact List.mem_filter.mpr ⟨hq, hmatch⟩
  · simp [search_chapters_by_regex, h]
  · intro c hc hmatch l hl
    simp only [search_chapters_by_regex, h, Bool.false_eq_true, if_false,
      Except.ok.injEq] at hl
    rw [← hl]
    exact List.mem_map.mpr ⟨c, List.mem_filter.mpr ⟨hc, hmatch⟩, rfl⟩
  · simp [search_characters_by_regex, h]
  · intro c hc hmatch l hl
    simp only [search_characters_by_regex, h, Bool.false_eq_true, if_false,
      Except.ok.injEq] at hl
    rw [← hl]
    exact List.mem_filter.mpr ⟨hc, hmatch⟩

/-- Witness for C10 at the empty store. -/
theorem c10_regex_search_unbounded_witness :
    search_qa_by_regex trivEnv emptyStore "magic" =
      .ok (emptyStore.qa.filter fun q =>
        trivEnv.regexMatchI "magic" q.question || trivEnv.regexMatchI "magic" q.answer) :=
  ((c10_regex_search_unbounded trivEnv emptyStore "magic" rfl).1).1

/-! ### C1 -/

lemma wrapResponse_ne_noContent (id : Option JVal) (r : Except MCPError MCPResult) :
    wrapResponse id r ≠ HttpOutcome.noContent := by
  cases r <;> simp [wrapResponse]

/-- Claim C1, counterexample: A request with no `id` naming an unknown
method *does* produce a response body: a `-32601` error envelope with
null `id`.  The claim that every id-less request produces no response
body is therefore false. -/
theorem c1_counterexample :
    (rmcp_http_handler trivEnv false emptyStore (some reqNoIdUnknown)).1 =
      HttpOutcome.ok ⟨"2.0", none, none,
        some ⟨-32601, "Method not found: nonexistent_method"⟩⟩ ∧
    (rmcp_http_handler trivEnv false emptyStore (some reqNoIdUnknown)).1 ≠
      HttpOutcome.noContent := by
  constructor
  · rfl
  · intro h
    exact HttpOutcome.noConfusion (by rw [← h]; rfl : HttpOutcome.noContent = (HttpOutcome.ok
      ⟨"2.0", none, none, some ⟨-32601, "Method not found: nonexistent_method"⟩⟩))

/-- Claim C1, amended: The dispatcher produces no response body exactly
for a parsed request whose version is the supported literal, whose
method is `"notifications/initialized"`, and whose `id` is absent; every
other request — including any other method invoked without an `id`, and
an unparseable body — receives a response envelope (with null `id` when
the `id` was absent). -/
theorem c1_notification_no_response (env : MongoEnv) (writeAccess : Bool) (st : Store)
    (body : Option MCPRequest) :
    (rmcp_http_handler env writeAccess st body).1 = HttpOutcome.noContent ↔
    ∃ req, body = some req ∧ req.jsonrpc = "2.0" ∧
      req.method = "notifications/initialized" ∧ req.id = none := by
  cases body with
  | none =>
    simp only [rmcp_http_handler]
    constructor
    · intro h; exact HttpOutcome.noConfusion h
    · rintro ⟨req, h, -⟩; exact Option.noConfusion h
  | some req =>
    simp only [rmcp_http_handler, Option.some.injEq]
    by_cases hv : req.jsonrpc = "2.0"
    · rw [if_neg (by simp [hv])]
      constructor
      · intro h
        split at h
        next hm => dsimp only at h; exact absurd h (wrapResponse_ne_noContent _ _)
        next hm => dsimp only at h; exact absurd h (wrapResponse_ne_noContent _ _)
        next hm => dsimp only at h; exact absurd h (wrapResponse_ne_noContent _ _)
        next hm => dsimp only at h; exact absurd h (wrapResponse_ne_noContent _ _)
        next hm => dsimp only at h; exact absurd h (wrapResponse_ne_noContent _ _)
        next hm => dsimp only at h; exact absurd h (wrapResponse_ne_noContent _ _)
        next hm => dsimp only at h; exact absurd h (wrapResponse_ne_noContent _ _)
        next hm => dsimp only at h; exact absurd h (wrapResponse_ne_noContent _ _)
        next hm => dsimp only at h; exact absurd h (wrapResponse_ne_noContent _ _)
        next hm => dsimp only at h; exact absurd h (wrapResponse_ne_noContent _ _)
        next hm =>
          by_cases hid : req.id.isNone
          · exact ⟨req, rfl, hv, hm, Option.isNone_iff_eq_none.mp hid⟩
          · rw [if_neg hid] at h
            dsimp only at h
            exact absurd h (wrapResponse_ne_noContent _ _)
        next hm => dsimp only at h; exact absurd h (wrapResponse_ne_noContent _ _)
      · rintro ⟨req', heq, -, hm, hid⟩
        obtain rfl := heq
        rw [hm]
        simp [hid]
    · rw [if_pos (by simp [hv])]
      constructor
      · intro h; exact HttpOutcome.noConfusion h
      · rintro ⟨req', heq, hjr, -⟩
        obtain rfl := heq
        exact absurd hjr hv

/-! ### C2 -/

lemma handle_query_code (env : MongoEnv) (st : Store) (p : MCPParams) (e : MCPError)
    (h : handle_query env st p = .error e) : e.code = -32602 := by
  unfold handle_query at h
  split at h
  · split at h
    · exact Except.noConfusion h
    · rw [Except.error.injEq] at h; rw [← h]
  · rw [Except.error.injEq] at h; rw [← h]

lemma handle_chapter_content_code (env : MongoEnv) (st : Store) (p : MCPParams) (e : MCPError)
    (h : handle_chapter_content env st p = .error e) : e.code = -32602 := by
  unfold handle_chapter_content at h
  split at h
  · rw [Except.error.injEq] at h; rw [← h]
  · split at h
    · exact Except.noConfusion h
    · rw [Except.error.injEq] at h; rw [← h]

lemma handle_character_details_code (env : MongoEnv) (st : Store) (p : MCPParams) (e : MCPError)
    (h : handle_character_details env st p = .error e) : e.code = -32602 := by
  unfold handle_character_details at h
  split at h
  · rw [Except.error.injEq] at h; rw [← h]
  · split at h
    · exact Except.noConfusion h
    · rw [Except.error.injEq] at h; rw [← h]

lemma handle_qa_regex_code (env : MongoEnv) (st : Store) (p : MCPParams) (e : MCPError)
    (h : handle_qa_regex env st p = .error e) : e.code = -32602 := by
  unfold handle_qa_regex at h
  split at h
  · rw [Except.error.injEq] at h; rw [← h]
  · split at h
    · exact Except.noConfusion h
    · rw [Except.error.injEq] at h; rw [← h]

lemma handle_chapter_regex_code (env : MongoEnv) (st : Store) (p : MCPParams) (e : MCPError)
    (h : handle_chapter_regex env st p = .error e) : e.code = -32602 := by
  unfold handle_chapter_regex at h
  split at h
  · rw [Except.error.injEq] at h; rw [← h]
  · split at h
    · exact Except.noConfusion h
    · rw [Except.error.injEq] at h; rw [← h]

lemma handle_character_regex_code (env : MongoEnv) (st : Store) (p : MCPParams) (e : MCPError)
    (h : handle_character_regex env st p = .error e) : e.code = -32602 := by
  unfold handle_character_regex at h
  split at h
  · rw [Except.error.injEq] at h; rw [← h]
  · split at h
    · exact Except.noConfusion h
    · rw [Except.error.injEq] at h; rw [← h]

lemma handle_chapter_summary_update_code (env : MongoEnv) (wa : Bool) (st : Store)
    (p : MCPParams) (e : MCPError)
    (h : (handle_chapter_summary_update env wa st p).1 = .error e) :
    e.code = -32602 ∨ e.code = 403 := by
  unfold handle_chapter_summary_update at h
  split at h
  · dsimp only at h; rw [Except.error.injEq] at h; left; rw [← h]
  · split at h
    · dsimp only at h; rw [Except.error.injEq] at h; left; rw [← h]
    · split at h
      · split at h
        · dsimp only at h; exact Except.noConfusion h
        · dsimp only at h; rw [Except.error.injEq] at h; left; rw [← h]
      · dsimp only at h; rw [Except.error.injEq] at h; right; rw [← h]

lemma wrapResponse_errorOf_ok (id : Option JVal) (r : MCPResult) :
    (wrapResponse id (.ok r)).errorOf = none := rfl

lemma wrapResponse_errorOf_error (id : Option JVal) (e : MCPError) :
    (wrapResponse id (.error e)).errorOf = some e := rfl

lemma wrapResponse_errorOf (id : Option JVal) (r : Except MCPError MCPResult) (e : MCPError)
    (h : (wrapResponse id r).errorOf = some e) : r = .error e := by
  cases r with
  | ok v => exact Option.noConfusion h
  | error e' => rw [wrapResponse_errorOf_error, Option.some.injEq] at h; rw [h]

/-- Claim C2, amended: The HTTP dispatcher's error codes: an unparseable
body → `-32700`; a wrong version → `-32600`; an unrouted method →
`-32601`; and every error produced by a routed handler carries `-32602`
(`Error::invalid_params`) — including missing parameters, store/internal
failures and the failed token check of `update_chapter_summary` — except
the disabled-write-access error, which carries the non-JSON-RPC code
`403`.  In particular no outcome of this dispatcher carries `-32603` or
`-32604`. -/
theorem c2_error_code_mapping :
    (∀ (env : MongoEnv) (wa : Bool) (st : Store) (body : Option MCPRequest) (e : MCPError),
      (rmcp_http_handler env wa st body).1.errorOf = some e →
      e.code ∈ ([-32700, -32600, -32601, -32602, 403] : List Int)) ∧
    (∀ (env : MongoEnv) (wa : Bool) (st : Store),
      ((rmcp_http_handler env wa st none).1.errorOf).map MCPError.code = some (-32700)) ∧
    (∀ (env : MongoEnv) (wa : Bool) (st : Store) (req : MCPRequest), req.jsonrpc ≠ "2.0" →
      ((rmcp_http_handler env wa st (some req)).1.errorOf).map MCPError.code =
        some (-32600)) ∧
    (∀ (env : MongoEnv) (wa : Bool) (st : Store) (req : MCPRequest), req.jsonrpc = "2.0" →
      req.method ∉ routedMethods →
      ((rmcp_http_handler env wa st (some req)).1.errorOf).map MCPError.code =
        some (-32601)) := by
  refine ⟨?_, ?_, ?_, ?_⟩
  · intro env wa st body e h
    cases body with
    | none =>
      simp only [rmcp_http_handler, HttpOutcome.errorOf, Option.some.injEq] at h
      rw [← h]; decide
    | some req =>
      by_cases hv : req.jsonrpc = "2.0"
      · simp only [rmcp_http_handler] at h
        rw [if_neg (by simp [hv])] at h
        split at h
        next =>
          have hc := handle_query_code _ _ _ _ (wrapResponse_errorOf _ _ _ (by simpa using h))
          rw [hc]; decide
        next =>
          have hc := handle_chapter_content_code _ _ _ _
            (wrapResponse_errorOf _ _ _ (by simpa using h))
          rw [hc]; decide
        next =>
          have hc := handle_character_details_code _ _ _ _
            (wrapResponse_errorOf _ _ _ (by simpa using h))
          rw [hc]; decide
        next =>
          have hc := handle_qa_regex_code _ _ _ _
            (wrapResponse_errorOf _ _ _ (by simpa using h))
          rw [hc]; decide
        next =>
          have hc := handle_chapter_regex_code _ _ _ _
            (wrapResponse_errorOf _ _ _ (by simpa using h))
          rw [hc]; decide
        next =>
          have hc := handle_character_regex_code _ _ _ _
            (wrapResponse_errorOf _ _ _ (by simpa using h))
          rw [hc]; decide
        next =>
          dsimp only at h
          have hcode := handle_chapter_summary_update_code env wa st req.params e
            (wrapResponse_errorOf _ _ _ (by simpa using h))
          rcases hcode with hc | hc
          · rw [hc]; decide
          · rw [hc]; decide
        next => dsimp only at h; rw [wrapResponse_errorOf_ok] at h; exact Option.noConfusion h
        next => dsimp only at h; rw [wrapResponse_errorOf_ok] at h; exact Option.noConfusion h
        next => dsimp only at h; rw [wrapResponse_errorOf_ok] at h; exact Option.noConfusion h
        next =>
          by_cases hid : req.id.isNone
          · rw [if_pos hid] at h; exact Option.noConfusion h
          · rw [if_neg hid] at h
            dsimp only at h
            rw [wrapResponse_errorOf_ok] at h
            exact Option.noConfusion h
        next =>
          dsimp only at h
          rw [wrapResponse_errorOf_error, Option.some.injEq] at h
          rw [← h]
          exact (by decide :
            (-32601 : Int) ∈ ([-32700, -32600, -32601, -32602, 403] : List Int))
      · simp only [rmcp_http_handler] at h
        rw [if_pos (by simp [hv])] at h
        simp only [HttpOutcome.errorOf, Option.some.injEq] at h
        rw [← h]; decide
  · intro env wa st
    rfl
  · intro env wa st req hv
    simp only [rmcp_http_handler]
    rw [if_pos (by simp [hv])]
    rfl
  · intro env wa st req hv hm
    simp only [rmcp_http_handler]
    rw [if_neg (by simp [hv])]
    split
    next h => exact absurd (by rw [h]; decide) hm
    next h => exact absurd (by rw [h]; decide) hm
    next h => exact absurd (by rw [h]; decide) hm
    next h => exact absurd (by rw [h]; decide) hm
    next h => exact absurd (by rw [h]; decide) hm
    next h => exact absurd (by rw [h]; decide) hm
    next h => exact absurd (by rw [h]; decide) hm
    next h => exact absurd (by rw [h]; decide) hm
    next h => exact absurd (by rw [h]; decide) hm
    next h => exact absurd (by rw [h]; decide) hm
    next h => exact absurd (by rw [h]; decide) hm
    next => rfl

/-- Claim C2, counterexample: A store failure surfaces as `-32602`
(`Error::invalid_params` wrapping "Database error: …"), not the `-32603`
the claim requires for store/internal failures. -/
theorem c2_counterexample :
    ((rmcp_http_handler trivEnv true brokenStore (some reqQueryBroken)).1.errorOf).map
        MCPError.code = some (-32602) ∧
    ((-32602 : Int) = -32603) = False := by
  constructor
  · rfl
  · simp

/-- Witness for C2 (amended): the parse-failure code at a concrete
input. -/
theorem c2_error_code_mapping_witness :
    ((-32700 : Int)) ∈ ([-32700, -32600, -32601, -32602, 403] : List Int) :=
  c2_error_code_mapping.1 trivEnv true emptyStore none
    ⟨-32700, "Invalid JSON in request body"⟩ rfl

/-! ### C7 -/

/-- Claim C7, counterexample: With write access disabled, invoking
`update_chapter_summary` yields the error `403` / "Write access not
enabled in this build", while a genuinely unknown method yields
`-32601` / "Method not found: …" — the two are distinguishable, contrary
to the claim. -/
theorem c7_counterexample :
    (rmcp_http_handler trivEnv false emptyStore (some reqUpdateSummary)).1.errorOf =
      some ⟨403, "Write access not enabled in this build"⟩ ∧
    (rmcp_http_handler trivEnv false emptyStore
        (some ⟨"2.0", some (.num 1), "nonexistent_method", ⟨none, []⟩⟩)).1.errorOf =
      some ⟨-32601, "Method not found: nonexistent_method"⟩ ∧
    (⟨403, "Write access not enabled in this build"⟩ : MCPError) ≠
      ⟨-32601, "Method not found: nonexistent_method"⟩ := by
  refine ⟨rfl, rfl, ?_⟩
  intro h
  exact absurd (congrArg MCPError.code h) (by decide)

/-- Claim C7, amended: When write access is disabled,
`update_chapter_summary` stays in the route table and any invocation
carrying both parameters receives the dedicated error `403` / "Write
access not enabled in this build", whose code differs from the `-32601`
unknown-method error — callers *can* distinguish the disabled method
from one that never existed. -/
theorem c7_disabled_write_distinct_error (env : MongoEnv) (st : Store) (req : MCPRequest)
    (cid s : String) (hv : req.jsonrpc = "2.0") (hm : req.method = "update_chapter_summary")
    (hcid : getStrOption req.params.options "chapter_id" = some cid)
    (hs : getStrOption req.params.options "summary" = some s) :
    (rmcp_http_handler env false st (some req)).1.errorOf =
      some ⟨403, "Write access not enabled in this build"⟩ ∧
    (403 : Int) ≠ -32601 := by
  refine ⟨?_, by decide⟩
  simp only [rmcp_http_handler]
  rw [if_neg (by simp [hv])]
  split
  next h => rw [hm] at h; exact absurd h (by decide)
  next h => rw [hm] at h; exact absurd h (by decide)
  next h => rw [hm] at h; exact absurd h (by decide)
  next h => rw [hm] at h; exact absurd h (by decide)
  next h => rw [hm] at h; exact absurd h (by decide)
  next h => rw [hm] at h; exact absurd h (by decide)
  next h =>
    dsimp only
    unfold handle_chapter_summary_update
    rw [hcid]
    dsimp only
    rw [hs]
    rfl
  next h => rw [hm] at h; exact absurd h (by decide)
  next h => rw [hm] at h; exact absurd h (by decide)
  next h => rw [hm] at h; exact absurd h (by decide)
  next h => rw [hm] at h; exact absurd h (by decide)
  next h1 h2 h3 h4 h5 h6 h7 h8 h9 h10 h11 =>
    rw [hm] at h1 h2 h3 h4 h5 h6 h7 h8 h9 h10 h11
    exact absurd rfl h7

/-- Witness for C7 (amended) at the concrete disabled-write request. -/
theorem c7_disabled_write_distinct_error_witness :
    (rmcp_http_handler trivEnv false emptyStore (some reqUpdateSummary)).1.errorOf =
      some ⟨403, "Write access not enabled in this build"⟩ ∧
    (403 : Int) ≠ -32601 :=
  c7_disabled_write_distinct_error trivEnv emptyStore reqUpdateSummary "zzz" "s"
    rfl rfl rfl rfl

end NovelServer
